import Mathlib

/-!
Shallow embedding of the CM1 offline backward-trajectory script
(`trajectory_test_scripts/backwards_trajectories_CM1_test2.ipynb`).

Floating-point values are modelled as `Option ℚ`: `none` stands for IEEE NaN
(produced in the script only as the `np.nan` fill value of out-of-domain
`scipy.interpolate.interpn` queries, and then propagated through arithmetic);
`some q` is an ordinary (finite) value.  All grid axes in the script are
`np.arange(0, n, 1)`, i.e. unit-spaced integer axes, which is what the
interpolation embedding below assumes.
-/

namespace CM1Traj

/-- A floating-point value: `none` is NaN, `some q` a finite value. -/
abbrev Val := Option ℚ

/-- Float subtraction: NaN propagates. -/
def vsub : Val → Val → Val
  | some a, some b => some (a - b)
  | _, _ => none

/-- Float multiplication: NaN propagates. -/
def vmul : Val → Val → Val
  | some a, some b => some (a * b)
  | _, _ => none

/-- Float division: NaN propagates.  (Rational division by zero yields 0
where floats would give ±inf/NaN; no claim in this development exercises a
zero divisor.) -/
def vdiv : Val → Val → Val
  | some a, some b => some (a / b)
  | _, _ => none

/-- `np.clip(·, min=m)`: `max` with the floor on numbers, NaN is left NaN
(NumPy comparisons with NaN are false, so clip does not replace NaN). -/
def vclip (m : ℚ) : Val → Val
  | some a => some (max a m)
  | none => none

/-- Interval index used by `interpn`'s linear method on a unit-spaced axis
`0, 1, …, n-1`: the floor of the query clamped to the last interval `n-2`
(mirroring `np.searchsorted` interval selection at the right edge). -/
def cellIndex (n : ℕ) (q : ℚ) : ℕ := min ⌊q⌋.toNat (n - 2)

/-- The query is inside the axis bounds `[0, n-1]`. -/
def inB (n : ℕ) (q : ℚ) : Prop := 0 ≤ q ∧ q ≤ (n : ℚ) - 1

instance (n : ℕ) (q : ℚ) : Decidable (inB n q) :=
  inferInstanceAs (Decidable (_ ∧ _))

/-- The fractional offset of the query into its interval. -/
def frac (n : ℕ) (q : ℚ) : ℚ := q - cellIndex n q

/-- Trilinear interpolation of `f` at in-bounds fractional `(z, y, x)`,
as the weighted sum of the 8 surrounding corner values. -/
def tri3 (nz ny nx : ℕ) (f : ℕ → ℕ → ℕ → ℚ) (qz qy qx : ℚ) : ℚ :=
  (1 - frac nz qz) * (1 - frac ny qy) * (1 - frac nx qx)
      * f (cellIndex nz qz) (cellIndex ny qy) (cellIndex nx qx)
    + (1 - frac nz qz) * (1 - frac ny qy) * frac nx qx
      * f (cellIndex nz qz) (cellIndex ny qy) (cellIndex nx qx + 1)
    + (1 - frac nz qz) * frac ny qy * (1 - frac nx qx)
      * f (cellIndex nz qz) (cellIndex ny qy + 1) (cellIndex nx qx)
    + (1 - frac nz qz) * frac ny qy * frac nx qx
      * f (cellIndex nz qz) (cellIndex ny qy + 1) (cellIndex nx qx + 1)
    + frac nz qz * (1 - frac ny qy) * (1 - frac nx qx)
      * f (cellIndex nz qz + 1) (cellIndex ny qy) (cellIndex nx qx)
    + frac nz qz * (1 - frac ny qy) * frac nx qx
      * f (cellIndex nz qz + 1) (cellIndex ny qy) (cellIndex nx qx + 1)
    + frac nz qz * frac ny qy * (1 - frac nx qx)
      * f (cellIndex nz qz + 1) (cellIndex ny qy + 1) (cellIndex nx qx)
    + frac nz qz * frac ny qy * frac nx qx
      * f (cellIndex nz qz + 1) (cellIndex ny qy + 1) (cellIndex nx qx + 1)

/-- `scipy.interpolate.interpn((z,y,x), f, pts, method='linear',
bounds_error=False, fill_value=fill)` on the unit axes `0..n-1`, for one
query point.  A NaN coordinate gives NaN (scipy's bounds mask does not flag
NaN, and the NaN weight then poisons the result); an out-of-bounds finite
coordinate gives the fill value. -/
def interpn3 (nz ny nx : ℕ) (f : ℕ → ℕ → ℕ → ℚ) (fill : Val) :
    Val → Val → Val → Val
  | some z, some y, some x =>
    if inB nz z ∧ inB ny y ∧ inB nx x then some (tri3 nz ny nx f z y x)
    else fill
  | _, _, _ => none

/-- Bilinear interpolation of a 2D field at in-bounds fractional `(y, x)`. -/
def bil2 (ny nx : ℕ) (f : ℕ → ℕ → ℚ) (qy qx : ℚ) : ℚ :=
  (1 - frac ny qy) * (1 - frac nx qx) * f (cellIndex ny qy) (cellIndex nx qx)
    + (1 - frac ny qy) * frac nx qx * f (cellIndex ny qy) (cellIndex nx qx + 1)
    + frac ny qy * (1 - frac nx qx) * f (cellIndex ny qy + 1) (cellIndex nx qx)
    + frac ny qy * frac nx qx * f (cellIndex ny qy + 1) (cellIndex nx qx + 1)

/-- 2D `interpn` on the unit axes, one query point (used for the surface
height field `zs`). -/
def interpn2 (ny nx : ℕ) (f : ℕ → ℕ → ℚ) (fill : Val) : Val → Val → Val
  | some y, some x =>
    if inB ny y ∧ inB nx x then some (bil2 ny nx f y x) else fill
  | _, _ => none

/-- The run configuration fixed in the notebook's user cells. -/
structure Config where
  nx : ℕ
  ny : ℕ
  nz : ℕ
  hor_resolution : ℚ
  time_step_length : ℚ
  staggered : Bool
  start_time_step : ℤ
  time_steps : ℕ

/-- The external data source (`ds`): time-sliced velocity and scalar fields
plus the static surface-height (`zs`) and level-height (`zh`) fields. -/
structure Provider where
  uinterp : ℤ → ℕ → ℕ → ℕ → ℚ
  vinterp : ℤ → ℕ → ℕ → ℕ → ℚ
  winterp : ℤ → ℕ → ℕ → ℕ → ℚ
  var1 : ℤ → ℕ → ℕ → ℕ → ℚ
  zs : ℕ → ℕ → ℚ
  zh : ℕ → ℕ → ℕ → ℚ

/-- `vert_resolution = ds.zh[0,1:,:,:] - ds.zh[0,:-1,:,:]`: the
level-to-level vertical spacing, defined on the `z[:-1]` axis. -/
def vert_resolution (fp : Provider) (k j i : ℕ) : ℚ :=
  fp.zh (k + 1) j i - fp.zh k j i

/-- The parcel arrays, each indexed `(time step, vertical seed, horizontal
seed)`.  The NumPy arrays have a fixed seed extent; here they are total
functions and every claim quantifies over the seed indices it needs. -/
structure PState where
  xpos : ℕ → ℕ → ℕ → Val
  ypos : ℕ → ℕ → ℕ → Val
  zpos : ℕ → ℕ → ℕ → Val
  zpos_heightASL : ℕ → ℕ → ℕ → Val
  zpos_vert_res : ℕ → ℕ → ℕ → Val
  variable1 : ℕ → ℕ → ℕ → Val

/-- `xloc = xpos[t]-0.5` (scalar-grid x coordinate). -/
def xloc (s : PState) (t k j : ℕ) : Val := vsub (s.xpos t k j) (some (1/2))

/-- `yloc = ypos[t]-0.5`. -/
def yloc (s : PState) (t k j : ℕ) : Val := vsub (s.ypos t k j) (some (1/2))

/-- `zloc = zpos[t]-0.5`. -/
def zloc (s : PState) (t k j : ℕ) : Val := vsub (s.zpos t k j) (some (1/2))

/-- `coord_u`: for staggered data the u-staggered axis x keeps the raw
position, otherwise all three axes use the `-0.5` scalar-grid offset.
Triples are ordered `(z, y, x)` as in the script. -/
def coord_u (cfg : Config) (s : PState) (t k j : ℕ) : Val × Val × Val :=
  if cfg.staggered then (zloc s t k j, yloc s t k j, s.xpos t k j)
  else (zloc s t k j, yloc s t k j, xloc s t k j)

/-- `coord_v`: staggered in y. -/
def coord_v (cfg : Config) (s : PState) (t k j : ℕ) : Val × Val × Val :=
  if cfg.staggered then (zloc s t k j, s.ypos t k j, xloc s t k j)
  else (zloc s t k j, yloc s t k j, xloc s t k j)

/-- `coord_w`: staggered in z. -/
def coord_w (cfg : Config) (s : PState) (t k j : ℕ) : Val × Val × Val :=
  if cfg.staggered then (s.zpos t k j, yloc s t k j, xloc s t k j)
  else (zloc s t k j, yloc s t k j, xloc s t k j)

/-- `coord`: the scalar-grid coordinates used for every other field. -/
def coord (s : PState) (t k j : ℕ) : Val × Val × Val :=
  (zloc s t k j, yloc s t k j, xloc s t k j)

/-- Fill value of the u and v velocity interpolations (`fill_value=np.nan`). -/
def velFill : Val := none

/-- Fill value of the w velocity interpolation (`fill_value=0`). -/
def wFill : Val := some 0

/-- Fill value of the tracked-scalar interpolation (`fill_value=np.nan`). -/
def scalarFill : Val := none

/-- Fill value of the vertical-spacing interpolation (`fill_value=np.nan`). -/
def vertResFill : Val := none

/-- Fill value of the surface-height interpolation (`fill_value=np.nan`). -/
def surfaceFill : Val := none

/-- Fill value of the seed-time level-height interpolation (`fill_value=0`). -/
def seedHeightFill : Val := some 0

/-- The u sample for parcel `(k,j)` at step `t`: `interpn((z,y,x), u,
coord_u, 'linear', bounds_error=False, fill_value=np.nan)` with
`u = ds.uinterp[start_time_step-t]`. -/
def uInterp (cfg : Config) (fp : Provider) (t : ℕ) (s : PState) (k j : ℕ) : Val :=
  interpn3 cfg.nz cfg.ny cfg.nx (fp.uinterp (cfg.start_time_step - (t : ℤ)))
    velFill (coord_u cfg s t k j).1 (coord_u cfg s t k j).2.1 (coord_u cfg s t k j).2.2

/-- The v sample, as `uInterp` but with `coord_v` and `ds.vinterp`. -/
def vInterp (cfg : Config) (fp : Provider) (t : ℕ) (s : PState) (k j : ℕ) : Val :=
  interpn3 cfg.nz cfg.ny cfg.nx (fp.vinterp (cfg.start_time_step - (t : ℤ)))
    velFill (coord_v cfg s t k j).1 (coord_v cfg s t k j).2.1 (coord_v cfg s t k j).2.2

/-- The w sample: note the script passes `fill_value=0` here. -/
def wInterp (cfg : Config) (fp : Provider) (t : ℕ) (s : PState) (k j : ℕ) : Val :=
  interpn3 cfg.nz cfg.ny cfg.nx (fp.winterp (cfg.start_time_step - (t : ℤ)))
    wFill (coord_w cfg s t k j).1 (coord_w cfg s t k j).2.1 (coord_w cfg s t k j).2.2

/-- The tracked-scalar sample at the scalar-grid coordinates. -/
def var1Interp (cfg : Config) (fp : Provider) (t : ℕ) (s : PState) (k j : ℕ) : Val :=
  interpn3 cfg.nz cfg.ny cfg.nx (fp.var1 (cfg.start_time_step - (t : ℤ)))
    scalarFill (coord s t k j).1 (coord s t k j).2.1 (coord s t k j).2.2

/-- `xpos[t+1] = xpos[t] - interpn(u)·time_step_length/hor_resolution`. -/
def newXpos (cfg : Config) (fp : Provider) (t : ℕ) (s : PState) (k j : ℕ) : Val :=
  vsub (s.xpos t k j)
    (vdiv (vmul (uInterp cfg fp t s k j) (some cfg.time_step_length))
      (some cfg.hor_resolution))

/-- `ypos[t+1] = ypos[t] - interpn(v)·time_step_length/hor_resolution`. -/
def newYpos (cfg : Config) (fp : Provider) (t : ℕ) (s : PState) (k j : ℕ) : Val :=
  vsub (s.ypos t k j)
    (vdiv (vmul (vInterp cfg fp t s k j) (some cfg.time_step_length))
      (some cfg.hor_resolution))

/-- `zpos_heightASL[t+1] = zpos_heightASL[t] - interpn(w)·time_step_length`. -/
def newHeightASL (cfg : Config) (fp : Provider) (t : ℕ) (s : PState) (k j : ℕ) : Val :=
  vsub (s.zpos_heightASL t k j)
    (vmul (wInterp cfg fp t s k j) (some cfg.time_step_length))

/-- `zpos_vert_res[t] = interpn((z[:-1],y,x), vert_resolution, coord,
fill_value=np.nan)`: the local vertical spacing at the *pre-update*
scalar-grid position. -/
def vertResInterp (cfg : Config) (fp : Provider) (t : ℕ) (s : PState) (k j : ℕ) : Val :=
  interpn3 (cfg.nz - 1) cfg.ny cfg.nx (vert_resolution fp) vertResFill
    (coord s t k j).1 (coord s t k j).2.1 (coord s t k j).2.2

/-- `surface_height = interpn((y,x), zs, coord_zs, fill_value=np.nan)` at
the *post-update* horizontal position `(ypos[t+1]-0.5, xpos[t+1]-0.5)`. -/
def surfInterp (cfg : Config) (fp : Provider) (t : ℕ) (s : PState) (k j : ℕ) : Val :=
  interpn2 cfg.ny cfg.nx fp.zs surfaceFill
    (vsub (newYpos cfg fp t s k j) (some (1/2)))
    (vsub (newXpos cfg fp t s k j) (some (1/2)))

/-- CoordinateTransform: absolute height back to a grid-index vertical
position, `(height - surfaceHeight)/localVerticalSpacing`. -/
def indexFromHeight (h zsv vr : Val) : Val := vdiv (vsub h zsv) vr

/-- `zpos[t+1] = (zpos_heightASL[t+1] - surface_height)/zpos_vert_res[t]`. -/
def newZpos (cfg : Config) (fp : Provider) (t : ℕ) (s : PState) (k j : ℕ) : Val :=
  indexFromHeight (newHeightASL cfg fp t s k j) (surfInterp cfg fp t s k j)
    (vertResInterp cfg fp t s k j)

/-- The surface floor: `zpos.clip(min=0.5)` if staggered else
`zpos.clip(min=0)`. -/
def clipMin (cfg : Config) : ℚ := if cfg.staggered then 1/2 else 0

/-- One iteration of the `for t in range(time_steps-1)` loop: write the
`t+1` positions and height, write `zpos_vert_res[t]`, clip the *entire*
`zpos` array to the surface floor, and sample the tracked scalar at the
step-`t` (pre-update) position into `variable1[t]`. -/
def stepState (cfg : Config) (fp : Provider) (t : ℕ) (s : PState) : PState where
  xpos := fun t' k j => if t' = t + 1 then newXpos cfg fp t s k j else s.xpos t' k j
  ypos := fun t' k j => if t' = t + 1 then newYpos cfg fp t s k j else s.ypos t' k j
  zpos := fun t' k j =>
    vclip (clipMin cfg)
      (if t' = t + 1 then newZpos cfg fp t s k j else s.zpos t' k j)
  zpos_heightASL := fun t' k j =>
    if t' = t + 1 then newHeightASL cfg fp t s k j else s.zpos_heightASL t' k j
  zpos_vert_res := fun t' k j =>
    if t' = t then vertResInterp cfg fp t s k j else s.zpos_vert_res t' k j
  variable1 := fun t' k j =>
    if t' = t then var1Interp cfg fp t s k j else s.variable1 t' k j

/-- CoordinateTransform: grid-index location to absolute height, by
interpolating the static level-height field `zh` (fill value 0). -/
def heightFromIndex (cfg : Config) (fp : Provider) (qz qy qx : Val) : Val :=
  interpn3 cfg.nz cfg.ny cfg.nx fp.zh seedHeightFill qz qy qx

/-- The seeded state: step-0 positions from the user's seed functions, the
seed absolute height interpolated from `zh` at the `-0.5`-offset seed
coordinates, and every other entry the `np.zeros` initial value. -/
def seedState (cfg : Config) (fp : Provider) (X0 Y0 Z0 : ℕ → ℕ → ℚ) : PState where
  xpos := fun t k j => if t = 0 then some (X0 k j) else some 0
  ypos := fun t k j => if t = 0 then some (Y0 k j) else some 0
  zpos := fun t k j => if t = 0 then some (Z0 k j) else some 0
  zpos_heightASL := fun t k j =>
    if t = 0 then
      heightFromIndex cfg fp (some (Z0 k j - 1/2)) (some (Y0 k j - 1/2))
        (some (X0 k j - 1/2))
    else some 0
  zpos_vert_res := fun _ _ _ => some 0
  variable1 := fun _ _ _ => some 0

/-- The full integration loop, `t = 0, …, time_steps-2`. -/
def runLoop (cfg : Config) (fp : Provider) (s : PState) : PState :=
  (List.range (cfg.time_steps - 1)).foldl (fun s' t => stepState cfg fp t s') s

/-- The "Get variable data for final time step" cell: sample `variable1`
at the step `time_steps-1` positions — but against the *stale* `var1`
array, which is still the snapshot fetched by the loop's final iteration
`t = time_steps-2`, i.e. time index `start_time_step-(time_steps-2)`. -/
def finalSample (cfg : Config) (fp : Provider) (s : PState) : PState :=
  let tl := cfg.time_steps - 1
  { s with
    variable1 := fun t' k j =>
      if t' = tl then
        interpn3 cfg.nz cfg.ny cfg.nx
          (fp.var1 (cfg.start_time_step - ((cfg.time_steps : ℤ) - 2)))
          scalarFill (coord s tl k j).1 (coord s tl k j).2.1 (coord s tl k j).2.2
      else s.variable1 t' k j }

/-- A whole run: seed, loop, final scalar sampling. -/
def runTraj (cfg : Config) (fp : Provider) (X0 Y0 Z0 : ℕ → ℕ → ℚ) : PState :=
  finalSample cfg fp (runLoop cfg fp (seedState cfg fp X0 Y0 Z0))

/-! Concrete configurations, data providers and states used to instantiate
the end-to-end scenarios, the counterexamples and the witnesses. -/

/-- The spec's end-to-end scenario configuration: unstaggered fields,
1000 m horizontal resolution, 60 s steps, 5 backward steps from time 10. -/
def cfgW1 : Config where
  nx := 20
  ny := 20
  nz := 4
  hor_resolution := 1000
  time_step_length := 60
  staggered := false
  start_time_step := 10
  time_steps := 5

/-- Same configuration with the stagger flag enabled. -/
def cfgW7 : Config where
  nx := 20
  ny := 20
  nz := 4
  hor_resolution := 1000
  time_step_length := 60
  staggered := true
  start_time_step := 10
  time_steps := 5

/-- Flat terrain, uniform eastward wind of 10 m/s, zero v and w, uniform
100 m vertical spacing with scalar levels at the CM1 half heights. -/
def fpW1 : Provider where
  uinterp := fun _ _ _ _ => 10
  vinterp := fun _ _ _ _ => 0
  winterp := fun _ _ _ _ => 0
  var1 := fun _ _ _ _ => 0
  zs := fun _ _ => 0
  zh := fun k _ _ => 100 * ((k : ℚ) + 1/2)

/-- As `fpW1` but over terrain: surface height 500 m everywhere, the level
heights shifted up accordingly. -/
def fpW2 : Provider where
  uinterp := fun _ _ _ _ => 10
  vinterp := fun _ _ _ _ => 0
  winterp := fun _ _ _ _ => 0
  var1 := fun _ _ _ _ => 0
  zs := fun _ _ => 500
  zh := fun k _ _ => 500 + 100 * ((k : ℚ) + 1/2)

/-- A parcel state with every parcel at grid position `(x, y, z) =
(10, 10, 2)` and absolute height 200 m at every step. -/
def sW1 : PState where
  xpos := fun _ _ _ => some 10
  ypos := fun _ _ _ => some 10
  zpos := fun _ _ _ => some 2
  zpos_heightASL := fun _ _ _ => some 200
  zpos_vert_res := fun _ _ _ => some 0
  variable1 := fun _ _ _ => some 0

/-- As `sW1` but with absolute height 700 m (the terrain scenario). -/
def sW2 : PState where
  xpos := fun _ _ _ => some 10
  ypos := fun _ _ _ => some 10
  zpos := fun _ _ _ => some 2
  zpos_heightASL := fun _ _ _ => some 700
  zpos_vert_res := fun _ _ _ => some 0
  variable1 := fun _ _ _ => some 0

/-- A tiny 3×3×3 domain for the out-of-domain counterexamples. -/
def cfgC4 : Config where
  nx := 3
  ny := 3
  nz := 3
  hor_resolution := 1000
  time_step_length := 60
  staggered := false
  start_time_step := 10
  time_steps := 2

/-- Uniform 100 m/s eastward wind: one 60 s step displaces a parcel by 6
grid units, far outside the 3-point domain. -/
def fpC4 : Provider where
  uinterp := fun _ _ _ _ => 100
  vinterp := fun _ _ _ _ => 0
  winterp := fun _ _ _ _ => 0
  var1 := fun _ _ _ _ => 0
  zs := fun _ _ => 0
  zh := fun k _ _ => 100 * ((k : ℚ) + 1/2)

/-- Quiescent flow with a non-zero w field (7 m/s) for the fill-value
counterexample. -/
def fpC5 : Provider where
  uinterp := fun _ _ _ _ => 0
  vinterp := fun _ _ _ _ => 0
  winterp := fun _ _ _ _ => 7
  var1 := fun _ _ _ _ => 0
  zs := fun _ _ => 0
  zh := fun k _ _ => 100 * ((k : ℚ) + 1/2)

/-- A parcel far above the 3-level domain (vertical index 100). -/
def sC5 : PState where
  xpos := fun _ _ _ => some 1
  ypos := fun _ _ _ => some 1
  zpos := fun _ _ _ => some 100
  zpos_heightASL := fun _ _ _ => some 10000
  zpos_vert_res := fun _ _ _ => some 0
  variable1 := fun _ _ _ => some 0

/-- A 3-step backward run from time index 10: the terminal step's field
snapshot should be time index `10 - (3-1) = 8`. -/
def cfgC6 : Config where
  nx := 3
  ny := 3
  nz := 3
  hor_resolution := 1000
  time_step_length := 60
  staggered := false
  start_time_step := 10
  time_steps := 3

/-- Quiescent flow whose tracked scalar equals the time index everywhere,
so a sample records which snapshot was used. -/
def fpC6 : Provider where
  uinterp := fun _ _ _ _ => 0
  vinterp := fun _ _ _ _ => 0
  winterp := fun _ _ _ _ => 0
  var1 := fun ti _ _ _ => (ti : ℚ)
  zs := fun _ _ => 0
  zh := fun k _ _ => 100 * ((k : ℚ) + 1/2)

/-- All parcels at grid position `(1, 1, 1)` at every step. -/
def sC6 : PState where
  xpos := fun _ _ _ => some 1
  ypos := fun _ _ _ => some 1
  zpos := fun _ _ _ => some 1
  zpos_heightASL := fun _ _ _ => some 100
  zpos_vert_res := fun _ _ _ => some 100
  variable1 := fun _ _ _ => some 0

/-- A sample 3D field whose value encodes its index, `f z y x = z + 10·y
+ 100·x`. -/
def fW8 (a b e : ℕ) : ℚ := (a : ℚ) + 10 * (b : ℚ) + 100 * (e : ℚ)

/-- Level heights over a fixed 250 m surface with uniform 100 m spacing
(scalar levels at half heights, the CM1 convention). -/
def fpW9 : Provider where
  uinterp := fun _ _ _ _ => 0
  vinterp := fun _ _ _ _ => 0
  winterp := fun _ _ _ _ => 0
  var1 := fun _ _ _ _ => 0
  zs := fun _ _ => 250
  zh := fun k _ _ => 250 + 100 * ((k : ℚ) + 1/2)

/-- The seeded state of the counterexample run: a single parcel column at
grid position `(1, 1, 1)`. -/
def sC4 : PState :=
  seedState cfgC4 fpC4 (fun _ _ => 1) (fun _ _ => 1) (fun _ _ => 1)

/-! Helper lemmas about the value arithmetic and the interpolator, shared
by the claim theorems below. -/

theorem vsub_some (a b : ℚ) : vsub (some a) (some b) = some (a - b) := rfl

theorem vsub_nan (a : Val) : vsub a none = none := by cases a <;> rfl

theorem vmul_some (a b : ℚ) : vmul (some a) (some b) = some (a * b) := rfl

theorem vdiv_some (a b : ℚ) : vdiv (some a) (some b) = some (a / b) := rfl

theorem vdiv_nan (b : Val) : vdiv none b = none := by cases b <;> rfl

theorem vclip_some (m a : ℚ) : vclip m (some a) = some (max a m) := rfl

theorem vclip_nan (m : ℚ) : vclip m none = none := rfl

theorem interpn3_inside (nz ny nx : ℕ) (f : ℕ → ℕ → ℕ → ℚ) (fill : Val)
    (z y x : ℚ) (h : inB nz z ∧ inB ny y ∧ inB nx x) :
    interpn3 nz ny nx f fill (some z) (some y) (some x) =
      some (tri3 nz ny nx f z y x) := by
  simp only [interpn3, if_pos h]

theorem interpn3_outside (nz ny nx : ℕ) (f : ℕ → ℕ → ℕ → ℚ) (fill : Val)
    (z y x : ℚ) (h : ¬ (inB nz z ∧ inB ny y ∧ inB nx x)) :
    interpn3 nz ny nx f fill (some z) (some y) (some x) = fill := by
  simp only [interpn3, if_neg h]

theorem interpn2_outside (ny nx : ℕ) (f : ℕ → ℕ → ℚ) (fill : Val)
    (y x : ℚ) (h : ¬ (inB ny y ∧ inB nx x)) :
    interpn2 ny nx f fill (some y) (some x) = fill := by
  simp only [interpn2, if_neg h]

theorem interpn3_of_const (nz ny nx : ℕ) (f : ℕ → ℕ → ℕ → ℚ) (fill : Val)
    (c z y x : ℚ) (hf : ∀ a b e, f a b e = c)
    (hz : inB nz z) (hy : inB ny y) (hx : inB nx x) :
    interpn3 nz ny nx f fill (some z) (some y) (some x) = some c := by
  rw [interpn3_inside nz ny nx f fill z y x ⟨hz, hy, hx⟩]
  simp only [tri3, hf]
  congr 1
  ring

/-- Constant fields interpolate to the constant whatever the (finite) query
is, when the fill value is that same constant. -/
theorem interpn3_const_total (nz ny nx : ℕ) (f : ℕ → ℕ → ℕ → ℚ) (c : ℚ)
    (hf : ∀ a b e, f a b e = c) (z y x : ℚ) :
    interpn3 nz ny nx f (some c) (some z) (some y) (some x) = some c := by
  by_cases hin : inB nz z ∧ inB ny y ∧ inB nx x
  · exact interpn3_of_const nz ny nx f (some c) c z y x hf hin.1 hin.2.1 hin.2.2
  · exact interpn3_outside nz ny nx f (some c) z y x hin

/-- A clipped entry that is a number is at least the clip floor. -/
theorem vclip_le (m : ℚ) (v : Val) (q : ℚ) (h : vclip m v = some q) : m ≤ q := by
  cases v with
  | none => exact absurd h (by simp [vclip])
  | some a =>
    have hmax : max a m = q := by simpa [vclip] using h
    exact hmax ▸ le_max_right a m

/-- Steps with loop counter different from `idx` never touch
`zpos_vert_res[idx]`. -/
theorem foldl_vert_res (cfg : Config) (fp : Provider) (l : List ℕ) (s : PState)
    (idx k j : ℕ) (h : ∀ t ∈ l, t ≠ idx) :
    ((l.foldl (fun s2 t => stepState cfg fp t s2) s).zpos_vert_res idx k j) =
      s.zpos_vert_res idx k j := by
  induction l generalizing s with
  | nil => rfl
  | cons a as ih =>
    rw [List.foldl_cons, ih _ (fun t ht => h t (List.mem_cons_of_mem a ht))]
    simp only [stepState]
    rw [if_neg (Ne.symm (h a (List.mem_cons_self a as)))]

/-- C8: the trilinear interpolation used by the engine, queried exactly at
an integer grid-index coordinate `(iz, iy, ix)` with each index at least
one point away from the upper axis end (which covers every interior
index), returns the stored array value at that index. -/
theorem interpn_exact_at_gridpoint (nz ny nx : ℕ) (f : ℕ → ℕ → ℕ → ℚ)
    (fill : Val) (iz iy ix : ℕ)
    (hz : iz + 1 < nz) (hy : iy + 1 < ny) (hx : ix + 1 < nx) :
    interpn3 nz ny nx f fill (some (iz : ℚ)) (some (iy : ℚ)) (some (ix : ℚ)) =
      some (f iz iy ix) := by
  have hb : ∀ (n i : ℕ), i + 1 < n → inB n (i : ℚ) := by
    intro n i hi
    refine ⟨Nat.cast_nonneg i, ?_⟩
    have h2 : ((i + 1 : ℕ) : ℚ) ≤ (n : ℚ) := by exact_mod_cast Nat.le_of_lt hi
    push_cast at h2
    linarith
  have hcell : ∀ (n i : ℕ), i + 1 < n → cellIndex n (i : ℚ) = i := by
    intro n i hi
    unfold cellIndex
    rw [Int.floor_natCast, Int.toNat_natCast]
    exact Nat.min_eq_left (by omega)
  have hfr : ∀ (n i : ℕ), i + 1 < n → frac n (i : ℚ) = 0 := by
    intro n i hi
    unfold frac
    rw [hcell n i hi, sub_self]
  rw [interpn3_inside nz ny nx f fill _ _ _ ⟨hb nz iz hz, hb ny iy hy, hb nx ix hx⟩]
  unfold tri3
  rw [hcell nz iz hz, hcell ny iy hy, hcell nx ix hx,
    hfr nz iz hz, hfr ny iy hy, hfr nx ix hx]
  congr 1
  ring

/-- C9: with the level-height field following the model's half-level
convention over a fixed surface height `c` and fixed vertical spacing `d`
(`zh k = c + d*(k+1/2)`), converting an in-bounds vertical position `i` to
absolute height via `heightFromIndex` (which samples `zh` at the scalar
coordinate `i - 1/2`) and back via `indexFromHeight` reproduces `i`
exactly (hence in particular within floating tolerance). -/
theorem height_index_round_trip (cfg : Config) (fp : Provider)
    (c d i qy qx : ℚ)
    (hzh : ∀ a b e, fp.zh a b e = c + d * ((a : ℚ) + 1/2)) (hd : d ≠ 0)
    (hz : inB cfg.nz (i - 1/2)) (hy : inB cfg.ny qy) (hx : inB cfg.nx qx) :
    indexFromHeight
      (heightFromIndex cfg fp (some (i - 1/2)) (some qy) (some qx))
      (some c) (some d) = some i := by
  unfold heightFromIndex
  rw [interpn3_inside _ _ _ _ _ _ _ _ ⟨hz, hy, hx⟩]
  unfold indexFromHeight
  rw [vsub_some, vdiv_some]
  congr 1
  unfold tri3 frac
  simp only [hzh]
  field_simp
  ring

/-- C3: the stored new vertical grid-index position is (up to the surface
clip of the subsequent boundary step) `indexFromHeight` of the new absolute
height, the surface height interpolated at the *new* (post-update)
horizontal position, and the local vertical spacing interpolated at the
*current* (pre-update) scalar-grid position on the `z[:-1]` axis. -/
theorem step_resolves_vertical_index (cfg : Config) (fp : Provider) (t : ℕ)
    (s : PState) (k j : ℕ) :
    (stepState cfg fp t s).zpos (t + 1) k j =
      vclip (clipMin cfg)
        (indexFromHeight ((stepState cfg fp t s).zpos_heightASL (t + 1) k j)
          (surfInterp cfg fp t s k j) (vertResInterp cfg fp t s k j))
    ∧ vertResInterp cfg fp t s k j =
        interpn3 (cfg.nz - 1) cfg.ny cfg.nx (vert_resolution fp) vertResFill
          (vsub (s.zpos t k j) (some (1/2))) (vsub (s.ypos t k j) (some (1/2)))
          (vsub (s.xpos t k j) (some (1/2)))
    ∧ surfInterp cfg fp t s k j =
        interpn2 cfg.ny cfg.nx fp.zs surfaceFill
          (vsub ((stepState cfg fp t s).ypos (t + 1) k j) (some (1/2)))
          (vsub ((stepState cfg fp t s).xpos (t + 1) k j) (some (1/2)))
    ∧ (stepState cfg fp t s).zpos_vert_res t k j = vertResInterp cfg fp t s k j := by
  refine ⟨?_, ?_, ?_, ?_⟩
  · simp [stepState, newZpos]
  · simp [vertResInterp, coord, zloc, yloc, xloc]
  · simp [surfInterp, stepState]
  · simp [stepState]

/-- C7: with the stagger flag enabled each velocity component's query
coordinates use the raw position on its own staggered axis (x for u, y for
v, z for w) and the `-0.5` offset on the other two axes; with the flag
disabled all three axes of all three components use the `-0.5` offset. -/
theorem stagger_offset_coordinates (cfg : Config) (s : PState) (t k j : ℕ) :
    (cfg.staggered = true →
      coord_u cfg s t k j =
        (vsub (s.zpos t k j) (some (1/2)), vsub (s.ypos t k j) (some (1/2)),
          s.xpos t k j)
      ∧ coord_v cfg s t k j =
        (vsub (s.zpos t k j) (some (1/2)), s.ypos t k j,
          vsub (s.xpos t k j) (some (1/2)))
      ∧ coord_w cfg s t k j =
        (s.zpos t k j, vsub (s.ypos t k j) (some (1/2)),
          vsub (s.xpos t k j) (some (1/2))))
    ∧ (cfg.staggered = false →
      coord_u cfg s t k j =
        (vsub (s.zpos t k j) (some (1/2)), vsub (s.ypos t k j) (some (1/2)),
          vsub (s.xpos t k j) (some (1/2)))
      ∧ coord_v cfg s t k j =
        (vsub (s.zpos t k j) (some (1/2)), vsub (s.ypos t k j) (some (1/2)),
          vsub (s.xpos t k j) (some (1/2)))
      ∧ coord_w cfg s t k j =
        (vsub (s.zpos t k j) (some (1/2)), vsub (s.ypos t k j) (some (1/2)),
          vsub (s.xpos t k j) (some (1/2)))) := by
  constructor <;> intro h <;>
    refine ⟨?_, ?_, ?_⟩ <;>
      simp [coord_u, coord_v, coord_w, h, zloc, yloc, xloc]

/-- C10: a loop step writes `zpos_vert_res` only at its own time index `t`,
and since the loop runs `t = 0 … time_steps-2` and neither seeding nor the
final sampling pass touches the array, the final time index
`time_steps - 1` retains its all-zero initial value in every full run. -/
theorem vert_res_final_step_untouched :
    (∀ (cfg : Config) (fp : Provider) (t : ℕ) (s : PState) (t2 k j : ℕ),
      t2 ≠ t →
      (stepState cfg fp t s).zpos_vert_res t2 k j = s.zpos_vert_res t2 k j)
    ∧ (∀ (cfg : Config) (fp : Provider) (X0 Y0 Z0 : ℕ → ℕ → ℚ) (k j : ℕ),
      (runTraj cfg fp X0 Y0 Z0).zpos_vert_res (cfg.time_steps - 1) k j = some 0) := by
  constructor
  · intro cfg fp t s t2 k j h
    simp only [stepState]
    rw [if_neg h]
  · intro cfg fp X0 Y0 Z0 k j
    show (finalSample cfg fp (runLoop cfg fp (seedState cfg fp X0 Y0 Z0))).zpos_vert_res
      (cfg.time_steps - 1) k j = some 0
    have hfin : ∀ s : PState, (finalSample cfg fp s).zpos_vert_res
        (cfg.time_steps - 1) k j = s.zpos_vert_res (cfg.time_steps - 1) k j := by
      intro s; rfl
    rw [hfin]
    unfold runLoop
    rw [foldl_vert_res cfg fp _ _ _ k j
      (fun t ht => by have := List.mem_range.mp ht; omega)]
    rfl

/-- C1: each step sets `xpos[t+1] = xpos[t] - u·dt/hres` and `ypos[t+1] =
ypos[t] - v·dt/hres` with the interpolated velocities (the minus sign being
the backward-integration direction); consequently, on unstaggered data with
a uniform eastward velocity of 10 m/s, zero v, horizontal resolution
1000 m and a 60 s step, any in-domain parcel's x decreases by exactly
`10·60/1000 = 3/5` grid units in the step while its y is unchanged. -/
theorem step_decrements_horizontal_position :
    (∀ (cfg : Config) (fp : Provider) (t : ℕ) (s : PState) (k j : ℕ),
      (stepState cfg fp t s).xpos (t + 1) k j =
        vsub (s.xpos t k j)
          (vdiv (vmul (uInterp cfg fp t s k j) (some cfg.time_step_length))
            (some cfg.hor_resolution))
      ∧ (stepState cfg fp t s).ypos (t + 1) k j =
        vsub (s.ypos t k j)
          (vdiv (vmul (vInterp cfg fp t s k j) (some cfg.time_step_length))
            (some cfg.hor_resolution)))
    ∧ (∀ (cfg : Config) (fp : Provider) (t : ℕ) (s : PState) (k j : ℕ)
        (px py pz : ℚ),
      cfg.staggered = false →
      cfg.hor_resolution = 1000 →
      cfg.time_step_length = 60 →
      (∀ ti a b e, fp.uinterp ti a b e = 10) →
      (∀ ti a b e, fp.vinterp ti a b e = 0) →
      s.xpos t k j = some px →
      s.ypos t k j = some py →
      s.zpos t k j = some pz →
      inB cfg.nz (pz - 1/2) →
      inB cfg.ny (py - 1/2) →
      inB cfg.nx (px - 1/2) →
      (stepState cfg fp t s).xpos (t + 1) k j = some (px - 3/5)
        ∧ (stepState cfg fp t s).ypos (t + 1) k j = some py) := by
  constructor
  · intro cfg fp t s k j
    constructor
    · simp [stepState, newXpos]
    · simp [stepState, newYpos]
  · intro cfg fp t s k j px py pz hstag hres hdt hfu hfv hx hy hz hbz hby hbx
    have hcu : coord_u cfg s t k j =
        (some (pz - 1/2), some (py - 1/2), some (px - 1/2)) := by
      simp [coord_u, hstag, zloc, yloc, xloc, hx, hy, hz, vsub_some]
    have hcv : coord_v cfg s t k j =
        (some (pz - 1/2), some (py - 1/2), some (px - 1/2)) := by
      simp [coord_v, hstag, zloc, yloc, xloc, hx, hy, hz, vsub_some]
    have hu : uInterp cfg fp t s k j = some 10 := by
      unfold uInterp
      rw [hcu]
      exact interpn3_of_const _ _ _ _ _ 10 _ _ _ (fun a b e => hfu _ a b e)
        hbz hby hbx
    have hv : vInterp cfg fp t s k j = some 0 := by
      unfold vInterp
      rw [hcv]
      exact interpn3_of_const _ _ _ _ _ 0 _ _ _ (fun a b e => hfv _ a b e)
        hbz hby hbx
    constructor
    · have : (stepState cfg fp t s).xpos (t + 1) k j = newXpos cfg fp t s k j := by
        simp [stepState]
      rw [this]
      unfold newXpos
      rw [hu, hx, hres, hdt, vmul_some, vdiv_some, vsub_some]
      norm_num
    · have : (stepState cfg fp t s).ypos (t + 1) k j = newYpos cfg fp t s k j := by
        simp [stepState]
      rw [this]
      unfold newYpos
      rw [hv, hy, hres, hdt, vmul_some, vdiv_some, vsub_some]
      norm_num

/-- C1 witness: one step of the spec's uniform-wind scenario from
`(x, y, z) = (10, 10, 2)` on the 20×20×4 grid. -/
theorem step_decrements_horizontal_position_witness :
    inB cfgW1.nx ((10 : ℚ) - 1/2)
    ∧ (stepState cfgW1 fpW1 0 sW1).xpos 1 0 0 = some (10 - 3/5)
    ∧ (stepState cfgW1 fpW1 0 sW1).ypos 1 0 0 = some 10 := by
  have hb : inB cfgW1.nz ((2 : ℚ) - 1/2) ∧ inB cfgW1.ny ((10 : ℚ) - 1/2)
      ∧ inB cfgW1.nx ((10 : ℚ) - 1/2) := by
    refine ⟨?_, ?_, ?_⟩ <;> constructor <;> norm_num [cfgW1]
  have h := step_decrements_horizontal_position.2 cfgW1 fpW1 0 sW1 0 0 10 10 2
    rfl rfl rfl (fun _ _ _ _ => rfl) (fun _ _ _ _ => rfl) rfl rfl rfl
    hb.1 hb.2.1 hb.2.2
  exact ⟨hb.2.2, h.1, h.2⟩

/-- C2: each step sets `zpos_heightASL[t+1] = zpos_heightASL[t] - w·dt`
with the interpolated vertical velocity, in physical meters — the update
does not reference the surface-height field at all (second conjunct);
consequently, with zero vertical velocity everywhere, the absolute height
of any parcel with finite state is unchanged by the step, whatever the
surface height below it. -/
theorem step_decrements_absolute_height :
    (∀ (cfg : Config) (fp : Provider) (t : ℕ) (s : PState) (k j : ℕ),
      (stepState cfg fp t s).zpos_heightASL (t + 1) k j =
        vsub (s.zpos_heightASL t k j)
          (vmul (wInterp cfg fp t s k j) (some cfg.time_step_length)))
    ∧ (∀ (cfg : Config) (fp : Provider) (zs2 : ℕ → ℕ → ℚ) (t : ℕ) (s : PState)
        (k j : ℕ),
      newHeightASL cfg { fp with zs := zs2 } t s k j = newHeightASL cfg fp t s k j)
    ∧ (∀ (cfg : Config) (fp : Provider) (t : ℕ) (s : PState) (k j : ℕ)
        (h px py pz : ℚ),
      (∀ ti a b e, fp.winterp ti a b e = 0) →
      s.xpos t k j = some px →
      s.ypos t k j = some py →
      s.zpos t k j = some pz →
      s.zpos_heightASL t k j = some h →
      (stepState cfg fp t s).zpos_heightASL (t + 1) k j = s.zpos_heightASL t k j) := by
  refine ⟨?_, ?_, ?_⟩
  · intro cfg fp t s k j
    simp [stepState, newHeightASL]
  · intro cfg fp zs2 t s k j
    rfl
  · intro cfg fp t s k j h px py pz hfw hx hy hz hh
    have hw : wInterp cfg fp t s k j = some 0 := by
      unfold wInterp
      cases hcase : cfg.staggered with
      | false =>
        have hcw : coord_w cfg s t k j =
            (some (pz - 1/2), some (py - 1/2), some (px - 1/2)) := by
          simp [coord_w, hcase, zloc, yloc, xloc, hx, hy, hz, vsub_some]
        rw [hcw]
        exact interpn3_const_total _ _ _ _ 0 (fun a b e => hfw _ a b e) _ _ _
      | true =>
        have hcw : coord_w cfg s t k j =
            (some pz, some (py - 1/2), some (px - 1/2)) := by
          simp [coord_w, hcase, zloc, yloc, xloc, hx, hy, hz, vsub_some]
        rw [hcw]
        exact interpn3_const_total _ _ _ _ 0 (fun a b e => hfw _ a b e) _ _ _
    have hstep : (stepState cfg fp t s).zpos_heightASL (t + 1) k j =
        newHeightASL cfg fp t s k j := by
      simp [stepState]
    rw [hstep]
    unfold newHeightASL
    rw [hw, hh, vmul_some, vsub_some]
    norm_num

/-- C2 witness: one step of the terrain scenario (surface height 500 m,
zero w): the absolute height 700 m is unchanged. -/
theorem step_decrements_absolute_height_witness :
    fpW2.zs 10 10 = 500
    ∧ (500 : ℚ) ≠ 0
    ∧ (stepState cfgW1 fpW2 0 sW2).zpos_heightASL 1 0 0 =
        sW2.zpos_heightASL 0 0 0
    ∧ sW2.zpos_heightASL 0 0 0 = some 700 := by
  refine ⟨rfl, by norm_num, ?_, rfl⟩
  exact step_decrements_absolute_height.2.2 cfgW1 fpW2 0 sW2 0 0 700 10 10 2
    (fun _ _ _ _ => rfl) rfl rfl rfl rfl

/-- C4 (amended): after any step — each step ends by clipping the *entire*
`zpos` array to the surface floor — every entry at every time index that
is a number is at least the configured minimum (`1/2` when staggered,
`0` otherwise).  (Entries can instead be the NaN marker, produced by
out-of-domain interpolation and left in place by `np.clip`; see the
counterexample.) -/
theorem every_written_zpos_above_floor_or_nan (cfg : Config) (fp : Provider)
    (t : ℕ) (s : PState) (t2 k j : ℕ) (q : ℚ)
    (h : (stepState cfg fp t s).zpos t2 k j = some q) : clipMin cfg ≤ q := by
  have h2 : vclip (clipMin cfg)
      (if t2 = t + 1 then newZpos cfg fp t s k j else s.zpos t2 k j) = some q := h
  exact vclip_le _ _ _ h2

/-- C4 counterexample: one step of the 100 m/s wind on the 3×3×3 domain
carries the parcel to `x = -5`; the surface-height query at the new
position is out of domain and fills with NaN, so the newly written
`zpos[1]` is NaN — which the clip leaves in place — and is *not* at least
the configured minimum. -/
theorem zpos_floor_counterexample :
    (stepState cfgC4 fpC4 0 sC4).zpos 1 0 0 = none
    ∧ ¬ (∃ q : ℚ, (stepState cfgC4 fpC4 0 sC4).zpos 1 0 0 = some q
        ∧ clipMin cfgC4 ≤ q) := by
  have hx0 : sC4.xpos 0 0 0 = some 1 := rfl
  have hy0 : sC4.ypos 0 0 0 = some 1 := rfl
  have hcu : coord_u cfgC4 sC4 0 0 0 = (some (1/2), some (1/2), some (1/2)) := by
    simp [coord_u, cfgC4, sC4, seedState, zloc, yloc, xloc, vsub_some]
    norm_num
  have hcv : coord_v cfgC4 sC4 0 0 0 = (some (1/2), some (1/2), some (1/2)) := by
    simp [coord_v, cfgC4, sC4, seedState, zloc, yloc, xloc, vsub_some]
    norm_num
  have hu : uInterp cfgC4 fpC4 0 sC4 0 0 = some 100 := by
    unfold uInterp
    rw [hcu]
    exact interpn3_of_const _ _ _ _ _ 100 _ _ _ (fun _ _ _ => rfl)
      (by constructor <;> norm_num [cfgC4])
      (by constructor <;> norm_num [cfgC4])
      (by constructor <;> norm_num [cfgC4])
  have hv : vInterp cfgC4 fpC4 0 sC4 0 0 = some 0 := by
    unfold vInterp
    rw [hcv]
    exact interpn3_of_const _ _ _ _ _ 0 _ _ _ (fun _ _ _ => rfl)
      (by constructor <;> norm_num [cfgC4])
      (by constructor <;> norm_num [cfgC4])
      (by constructor <;> norm_num [cfgC4])
  have hnx : newXpos cfgC4 fpC4 0 sC4 0 0 = some (-5) := by
    unfold newXpos
    rw [hu, hx0, vmul_some, vdiv_some, vsub_some]
    simp [cfgC4]
    norm_num
  have hny : newYpos cfgC4 fpC4 0 sC4 0 0 = some 1 := by
    unfold newYpos
    rw [hv, hy0, vmul_some, vdiv_some, vsub_some]
    simp [cfgC4]
  have hsurf : surfInterp cfgC4 fpC4 0 sC4 0 0 = none := by
    unfold surfInterp
    rw [hnx, hny, vsub_some, vsub_some]
    rw [interpn2_outside _ _ _ _ _ _
      (by intro hcon; have := hcon.2.1; norm_num at this)]
    rfl
  have h1 : (stepState cfgC4 fpC4 0 sC4).zpos 1 0 0 = none := by
    have hstep : (stepState cfgC4 fpC4 0 sC4).zpos 1 0 0 =
        vclip (clipMin cfgC4) (newZpos cfgC4 fpC4 0 sC4 0 0) := by
      simp [stepState]
    rw [hstep]
    unfold newZpos indexFromHeight
    rw [hsurf, vsub_nan, vdiv_nan, vclip_nan]
  refine ⟨h1, ?_⟩
  rintro ⟨q, hq, _⟩
  rw [h1] at hq
  cases hq

/-- C4 witness: an ordinary clipped entry (the untouched step-5 entry of a
state whose parcels sit at vertical index 2) is at least the floor. -/
theorem every_written_zpos_above_floor_or_nan_witness :
    (stepState cfgW1 fpW1 0 sW1).zpos 5 0 0 = some 2 ∧ clipMin cfgW1 ≤ 2 := by
  have h5 : (stepState cfgW1 fpW1 0 sW1).zpos 5 0 0 = some 2 := by
    have hstep : (stepState cfgW1 fpW1 0 sW1).zpos 5 0 0 =
        vclip (clipMin cfgW1) (sW1.zpos 5 0 0) := by
      simp [stepState]
    rw [hstep]
    have hz : sW1.zpos 5 0 0 = some 2 := rfl
    rw [hz, vclip_some, max_eq_left (by norm_num [clipMin, cfgW1] : clipMin cfgW1 ≤ 2)]
  exact ⟨h5, every_written_zpos_above_floor_or_nan cfgW1 fpW1 0 sW1 5 0 0 2 h5⟩

/-- C5 (amended): an out-of-bounds query never fails — it returns the
per-call fill value — and the fills the engine passes are NaN for the u
and v velocities, the tracked scalar, the vertical-spacing and the
surface-height interpolations, but 0 (not NaN) for the w velocity and the
seed-time level-height interpolations. -/
theorem out_of_domain_fill_policy :
    (velFill = none ∧ scalarFill = none ∧ vertResFill = none
      ∧ surfaceFill = none ∧ wFill = some 0 ∧ seedHeightFill = some 0)
    ∧ (∀ (nz ny nx : ℕ) (f : ℕ → ℕ → ℕ → ℚ) (fill : Val) (z y x : ℚ),
      ¬ (inB nz z ∧ inB ny y ∧ inB nx x) →
      interpn3 nz ny nx f fill (some z) (some y) (some x) = fill)
    ∧ (∀ (ny nx : ℕ) (f : ℕ → ℕ → ℚ) (fill : Val) (y x : ℚ),
      ¬ (inB ny y ∧ inB nx x) →
      interpn2 ny nx f fill (some y) (some x) = fill) :=
  ⟨⟨rfl, rfl, rfl, rfl, rfl, rfl⟩, interpn3_outside, interpn2_outside⟩

/-- C5 witness: a query one axis beyond the 3-point domain returns the
u/v fill (NaN) and the surface fill (NaN). -/
theorem out_of_domain_fill_policy_witness :
    ¬ (inB 3 (4 : ℚ) ∧ inB 3 (1 : ℚ) ∧ inB 3 (1 : ℚ))
    ∧ interpn3 3 3 3 (fun _ _ _ => 5) velFill (some 4) (some 1) (some 1) = velFill
    ∧ interpn2 3 3 (fun _ _ => 5) surfaceFill (some 4) (some 1) = surfaceFill := by
  have hn : ¬ (inB 3 (4 : ℚ) ∧ inB 3 (1 : ℚ) ∧ inB 3 (1 : ℚ)) := by
    intro hcon
    have := hcon.1.2
    norm_num [inB] at this
  have hn2 : ¬ (inB 3 (4 : ℚ) ∧ inB 3 (1 : ℚ)) := by
    intro hcon
    have := hcon.1.2
    norm_num [inB] at this
  exact ⟨hn, out_of_domain_fill_policy.2.1 3 3 3 _ velFill 4 1 1 hn,
    out_of_domain_fill_policy.2.2 3 3 _ surfaceFill 4 1 hn2⟩

/-- C5 counterexample: the w interpolation's out-of-domain fill is 0, not
NaN — a parcel at vertical index 100 over the 3-level domain samples w as
0 even though the w field is 7 everywhere in the domain. -/
theorem w_fill_zero_counterexample :
    wInterp cfgC4 fpC5 0 sC5 0 0 = some 0
    ∧ wInterp cfgC4 fpC5 0 sC5 0 0 ≠ none
    ∧ fpC5.winterp 10 1 1 1 = 7 := by
  have hcw : coord_w cfgC4 sC5 0 0 0 =
      (some (199/2), some (1/2), some (1/2)) := by
    simp [coord_w, cfgC4, sC5, zloc, yloc, xloc, vsub_some]
    norm_num
  have hw : wInterp cfgC4 fpC5 0 sC5 0 0 = some 0 := by
    unfold wInterp
    rw [hcw]
    rw [interpn3_outside _ _ _ _ _ _ _ _
      (by intro hcon; have := hcon.1.2; norm_num [inB, cfgC4] at this)]
    rfl
  exact ⟨hw, by rw [hw]; simp, rfl⟩

/-- C6: the extra scalar-sampling pass after the loop samples the final
step's positions against the *stale* snapshot left over from the loop's
last iteration — time index `start - (numSteps - 2)` — not against the
terminal snapshot `start - (numSteps - 1)`: in a 3-step run from time 10
over a scalar field equal to its time index everywhere, the final sample
records 9 where the terminal snapshot holds 8. -/
theorem final_sampling_uses_stale_snapshot :
    (∀ (cfg : Config) (fp : Provider) (X0 Y0 Z0 : ℕ → ℕ → ℚ),
      runTraj cfg fp X0 Y0 Z0 =
        finalSample cfg fp (runLoop cfg fp (seedState cfg fp X0 Y0 Z0)))
    ∧ (∀ (cfg : Config) (fp : Provider) (s : PState) (k j : ℕ),
      (finalSample cfg fp s).variable1 (cfg.time_steps - 1) k j =
        interpn3 cfg.nz cfg.ny cfg.nx
          (fp.var1 (cfg.start_time_step - ((cfg.time_steps : ℤ) - 2)))
          scalarFill
          (coord s (cfg.time_steps - 1) k j).1
          (coord s (cfg.time_steps - 1) k j).2.1
          (coord s (cfg.time_steps - 1) k j).2.2)
    ∧ ((finalSample cfgC6 fpC6 sC6).variable1 2 0 0 = some 9
      ∧ fpC6.var1 (cfgC6.start_time_step - ((cfgC6.time_steps : ℤ) - 1)) 1 1 1 = 8
      ∧ (9 : ℚ) ≠ 8) := by
  refine ⟨fun _ _ _ _ _ => rfl, ?_, ?_, ?_, by norm_num⟩
  · intro cfg fp s k j
    simp [finalSample]
  · have hc : coord sC6 2 0 0 = (some (1/2), some (1/2), some (1/2)) := by
      simp [coord, sC6, zloc, yloc, xloc, vsub_some]
      norm_num
    have h2 : (finalSample cfgC6 fpC6 sC6).variable1 2 0 0 =
        interpn3 cfgC6.nz cfgC6.ny cfgC6.nx
          (fpC6.var1 (cfgC6.start_time_step - ((cfgC6.time_steps : ℤ) - 2)))
          scalarFill
          (coord sC6 2 0 0).1 (coord sC6 2 0 0).2.1 (coord sC6 2 0 0).2.2 := by
      simp [finalSample, cfgC6]
    rw [h2, hc]
    exact interpn3_of_const _ _ _ _ _ 9 _ _ _
      (by intro a b e; simp [fpC6, cfgC6])
      (by constructor <;> norm_num [cfgC6])
      (by constructor <;> norm_num [cfgC6])
      (by constructor <;> norm_num [cfgC6])
  · show fpC6.var1 (10 - (3 - 1)) 1 1 1 = 8
    norm_num [fpC6]

/-- C7 witness: the u coordinates on a staggered configuration keep the
raw x, and the w coordinates on an unstaggered configuration shift all
three axes. -/
theorem stagger_offset_coordinates_witness :
    coord_u cfgW7 sW1 0 0 0 =
      (vsub (sW1.zpos 0 0 0) (some (1/2)), vsub (sW1.ypos 0 0 0) (some (1/2)),
        sW1.xpos 0 0 0)
    ∧ coord_w cfgW1 sW1 0 0 0 =
      (vsub (sW1.zpos 0 0 0) (some (1/2)), vsub (sW1.ypos 0 0 0) (some (1/2)),
        vsub (sW1.xpos 0 0 0) (some (1/2))) :=
  ⟨((stagger_offset_coordinates cfgW7 sW1 0 0 0).1 rfl).1,
    ((stagger_offset_coordinates cfgW1 sW1 0 0 0).2 rfl).2.2⟩

/-- C8 witness: the index-encoding field sampled exactly at `(2, 1, 1)` on
a 4³ grid returns its stored value 112. -/
theorem interpn_exact_at_gridpoint_witness :
    2 + 1 < 4
    ∧ interpn3 4 4 4 fW8 none (some ((2 : ℕ) : ℚ)) (some ((1 : ℕ) : ℚ))
        (some ((1 : ℕ) : ℚ)) = some (fW8 2 1 1)
    ∧ fW8 2 1 1 = 112 :=
  ⟨by norm_num,
    interpn_exact_at_gridpoint 4 4 4 fW8 none 2 1 1 (by norm_num) (by norm_num)
      (by norm_num),
    by norm_num [fW8]⟩

/-- C9 witness: over the 250 m surface with 100 m spacing, vertical
position `3/2` converts to height and back to exactly `3/2`. -/
theorem height_index_round_trip_witness :
    (100 : ℚ) ≠ 0
    ∧ indexFromHeight
        (heightFromIndex cfgW1 fpW9 (some ((3/2 : ℚ) - 1/2)) (some 1) (some 1))
        (some 250) (some 100) = some (3/2) :=
  ⟨by norm_num,
    height_index_round_trip cfgW1 fpW9 250 100 (3/2) 1 1 (fun _ _ _ => rfl)
      (by norm_num)
      (by constructor <;> norm_num [cfgW1])
      (by constructor <;> norm_num [cfgW1])
      (by constructor <;> norm_num [cfgW1])⟩

/-- C10 witness: a step with loop counter 0 leaves the step-7 entry of
`zpos_vert_res` at its initial zero. -/
theorem vert_res_final_step_untouched_witness :
    (7 : ℕ) ≠ 0
    ∧ (stepState cfgW1 fpW1 0 sW1).zpos_vert_res 7 0 0 =
        sW1.zpos_vert_res 7 0 0
    ∧ sW1.zpos_vert_res 7 0 0 = some 0 :=
  ⟨by decide, vert_res_final_step_untouched.1 cfgW1 fpW1 0 sW1 7 0 0 (by decide),
    rfl⟩

end CM1Traj
